import Mathlib

/-!
Verification of the NTRIP caster implementation (`src/`) against its
natural-language specification.  Python functions are shallowly embedded as
Lean definitions; Python `str` values are embedded as `List Char` where the
proofs need to reason about character-level operations (splitting, joining,
substring search) and as Lean `String` where only equality matters.
-/

namespace NTRIP

/-- Embedding of Python `str` for character-level reasoning. -/
abbrev Str := List Char

/-- `splitFirst sep s` mirrors Python `s.split(sep, 1)`: `none` when `sep`
does not occur in `s`, otherwise the part before the first occurrence and
the rest. -/
def splitFirst (sep : Char) : Str → Option (Str × Str)
  | [] => none
  | c :: rest =>
    if c = sep then some ([], rest)
    else match splitFirst sep rest with
      | none => none
      | some (pre, post) => some (c :: pre, post)

/-- Embeds `database.hash_password` (database.py:15-21) with the PBKDF2
derivation (a call into Python's `hashlib`, external to the repository)
abstracted as the function parameter `pbkdf2 password salt`.  The stored
record is `salt ++ "$" ++ digest`. -/
def hash_password (pbkdf2 : Str → Str → Str) (password salt : Str) : Str :=
  salt ++ '$' :: pbkdf2 password salt

/-- Embeds `database.verify_password` (database.py:23-34): a stored record
without `'$'` is legacy plaintext and is compared directly; otherwise the
part before the first `'$'` is the salt and the rest is the hex digest,
compared against the derivation from the provided password. -/
def verify_password (pbkdf2 : Str → Str → Str) (stored provided : Str) : Bool :=
  match splitFirst '$' stored with
  | none => stored = provided
  | some (salt, hashValue) => pbkdf2 provided salt = hashValue

/-! ### Credential store (database.py) -/

/-- A row of the `users` table (database.py:52-58). -/
structure UserRec where
  id : Nat
  username : String
  password : Str
deriving DecidableEq

/-- A row of the `mounts` table (database.py:61-71); `user_id` is the
optional bound owner. -/
structure MountRec where
  id : Nat
  mount : String
  password : Str
  user_id : Option Nat
deriving DecidableEq

/-- The relational store consulted by the authentication functions. -/
structure DB where
  users : List UserRec
  mounts : List MountRec

/-- `SELECT ... FROM users WHERE username = ?` with `fetchone()`. -/
def findUser (users : List UserRec) (u : String) : Option UserRec :=
  users.find? (fun r => r.username == u)

/-- `SELECT ... FROM mounts WHERE mount = ?` with `fetchone()`. -/
def findMountRec (mounts : List MountRec) (m : String) : Option MountRec :=
  mounts.find? (fun r => r.mount == m)

/-- Python truthiness of an optional string: `None` and `""` are falsy. -/
def truthyStr : Option String → Bool
  | none => false
  | some s => !(s == "")

/-- Python truthiness of an optional `Str`. -/
def truthyOpt : Option Str → Bool
  | none => false
  | some s => !s.isEmpty

/-- Python truthiness of an optional number: `None` and `0` are falsy. -/
def truthyRat : Option ℚ → Bool
  | none => false
  | some q => !(q == 0)

/-- Outcome messages of the authentication functions, one constructor per
distinct message string returned by database.py. -/
inductive AuthMsg
  | ok10
  | ok20
  | okDownload
  | noMount
  | needUserPass
  | noUser
  | badUserPassword
  | noMountAccess
  | needMountPass
  | badMountPass
  | limitExceeded
  | missingAuth
deriving DecidableEq

/-- Embeds `database.verify_mount_and_user` (database.py:86-159).  The
`"2.0"` branch requires a truthy username and password, looks the user up,
verifies the user password against the stored record, and checks the
optional mount-owner binding; the mount password is not consulted.  Every
other protocol version requires a truthy mount password matching the
stored mount password, ignoring the user fields. -/
def verify_mount_and_user (pbkdf2 : Str → Str → Str) (db : DB) (mount : String)
    (username : Option String) (password : Option Str) (mount_password : Option Str)
    (protocol_version : String) : Bool × AuthMsg :=
  match findMountRec db.mounts mount with
  | none => (false, .noMount)
  | some mrec =>
    if protocol_version = "2.0" then
      if truthyStr username = false ∨ truthyOpt password = false then
        (false, .needUserPass)
      else
        match findUser db.users (username.getD "") with
        | none => (false, .noUser)
        | some urec =>
          if verify_password pbkdf2 urec.password (password.getD []) = false then
            (false, .badUserPassword)
          else
            match mrec.user_id with
            | some bound => if bound ≠ urec.id then (false, .noMountAccess) else (true, .ok20)
            | none => (true, .ok20)
    else
      if truthyOpt mount_password = false then (false, .needMountPass)
      else if mrec.password ≠ mount_password.getD [] then (false, .badMountPass)
      else (true, .ok10)

/-- Embeds `DatabaseManager.check_mount_exists_in_db` (database.py:478-483). -/
def check_mount_exists_in_db (db : DB) (mount : String) : Bool :=
  (findMountRec db.mounts mount).isSome

/-- Embeds `DatabaseManager.verify_download_user` (database.py:485-510):
mount must exist in the table, the user must exist, and the user password
must verify; the mount-owner binding is not checked. -/
def verify_download_user (pbkdf2 : Str → Str → Str) (db : DB) (mount : String)
    (username : String) (password : Str) : Bool × AuthMsg :=
  match findMountRec db.mounts mount with
  | none => (false, .noMount)
  | some _ =>
    match findUser db.users username with
    | none => (false, .noUser)
    | some urec =>
      if verify_password pbkdf2 urec.password password = false then (false, .badUserPassword)
      else (true, .okDownload)

/-- Embeds the download path of `NTRIPHandler._verify_basic_auth`
(ntrip.py:738-779): database verification followed by the per-user
connection cap (`current_connections >= MAX_CONNECTIONS_PER_USER`
rejects). -/
def verify_basic_auth_download (pbkdf2 : Str → Str → Str) (db : DB) (mount : String)
    (username : String) (password : Str) (userConnCount maxPerUser : Nat) : Bool × AuthMsg :=
  let r := verify_download_user pbkdf2 db mount username password
  if r.1 = false then r
  else if userConnCount ≥ maxPerUser then (false, .limitExceeded)
  else (true, .okDownload)

/-! ### Mount registry (connection.py) -/

/-- The fields of `MountInfo` (connection.py:18-57) that the registry
claims depend on. -/
structure MountInfo where
  ip_address : String
  user_agent : String
  protocol_version : String
deriving DecidableEq

/-- The `online_mounts` dict, embedded as an association list whose keys
are unique (the dict invariant). -/
abbrev Registry := List (String × MountInfo)

/-- Dict lookup `online_mounts[mount_name]`. -/
def lookupMount : Registry → String → Option MountInfo
  | [], _ => none
  | e :: rest, m => if e.1 = m then some e.2 else lookupMount rest m

/-- Dict deletion `del online_mounts[mount_name]` (removes the unique
entry with that key). -/
def eraseMount : Registry → String → Registry
  | [], _ => []
  | e :: rest, m => if e.1 = m then rest else e :: eraseMount rest m

/-- Number of registry entries carrying a given mount name. -/
def countName : Registry → String → Nat
  | [], _ => 0
  | e :: rest, m => (if e.1 = m then 1 else 0) + countName rest m

/-- The keys of the registry. -/
def namesOf (reg : Registry) : List String := reg.map Prod.fst

/-- Embeds `ConnectionManager.add_mount_connection` (connection.py:200-234):
any existing entry under the same name is deleted (regardless of its
address), the new entry is inserted, and the function returns success
unconditionally. -/
def add_mount_connection (reg : Registry) (mount_name : String) (info : MountInfo) :
    (Bool × String) × Registry :=
  let reg1 := if (lookupMount reg mount_name).isSome then eraseMount reg mount_name else reg
  ((true, "Mount point connected successfully"), (mount_name, info) :: reg1)

/-- Embeds `ConnectionManager.remove_mount_connection` (connection.py:236-269). -/
def remove_mount_connection (reg : Registry) (mount_name : String) : Bool × Registry :=
  if (lookupMount reg mount_name).isSome then (true, eraseMount reg mount_name)
  else (false, reg)

/-- Dispatcher outcome of an upload admission attempt. -/
inductive UploadOutcome
  | badRequest
  | conflict
  | challenge (msg : AuthMsg)
  | admitted
deriving DecidableEq

/-- Embeds the admission logic of `NTRIPHandler.handle_upload`
(ntrip.py:1064-1160) acting on the registry: empty mount is a 400; an
occupied mount from a different address is a 409 with the registry left
untouched; an occupied mount from the same address is reclaimed before
authentication; authentication (the `verify_user` call, abstracted to its
boolean outcome `authOk`) gates `add_mount_connection`. -/
def handle_upload (reg : Registry) (mount ip agent ver : String) (authOk : Bool) :
    UploadOutcome × Registry :=
  if mount = "" then (.badRequest, reg)
  else
    match lookupMount reg mount with
    | some existing =>
      if existing.ip_address ≠ ip then (.conflict, reg)
      else
        let reg1 := (remove_mount_connection reg mount).2
        if authOk then (.admitted, (add_mount_connection reg1 mount ⟨ip, agent, ver⟩).2)
        else (.challenge .missingAuth, reg1)
    | none =>
      if authOk then (.admitted, (add_mount_connection reg mount ⟨ip, agent, ver⟩).2)
      else (.challenge .missingAuth, reg)

/-! ### Download dispatcher (ntrip.py handle_download) -/

/-- Dispatcher outcome of a download request. -/
inductive DownloadOutcome
  | sourcetable
  | challenge (msg : AuthMsg)
  | notFound
  | subscribe
deriving DecidableEq

/-- Python `path.lstrip('/')`. -/
def lstripSlash (path : String) : String :=
  ⟨path.data.dropWhile (fun c => c = '/')⟩

/-- Embeds `NTRIPHandler.handle_download` (ntrip.py:1166-1212): the
sourcetable paths short-circuit; otherwise Basic consumer authentication
runs, a failure yields the 401 challenge; then the mount's existence is
checked in the credential store via `check_mount_exists_in_db` (the live
registry is not consulted), a miss yields 404; otherwise the handler
proceeds to the forwarder subscription. -/
def handle_download (pbkdf2 : Str → Str → Str) (db : DB) (path : String)
    (username : String) (password : Str) (userConnCount maxPerUser : Nat) : DownloadOutcome :=
  if path = "/" ∨ path = "" ∨ path = "/sourcetable" then .sourcetable
  else
    let mount := lstripSlash path
    let auth := verify_basic_auth_download pbkdf2 db mount username password userConnCount maxPerUser
    if auth.1 = false then .challenge auth.2
    else if check_mount_exists_in_db db mount = false then .notFound
    else .subscribe

/-- HTTP status line sent for each download outcome: `send_auth_challenge`
sends 401 (ntrip.py:1428-1462), `send_error_response 404` a 404, the
success preamble a 200. -/
def responseStatus : DownloadOutcome → Nat
  | .sourcetable => 200
  | .challenge _ => 401
  | .notFound => 404
  | .subscribe => 200

/-! ### Producer disconnect cleanup (ntrip.py `_receive_rtcm_data` / `_cleanup`) -/

/-- Cleanup actions performed after the producer socket closes. -/
inductive CleanupAct
  | removeForwarderBuffer
  | removeMountConnection
  | closeSocket
deriving DecidableEq

/-- Embeds the `finally` block of `NTRIPHandler._receive_rtcm_data`
(ntrip.py:1258-1286) together with `NTRIPHandler._cleanup`
(ntrip.py:1544-1568) as a list of (delay, action) pairs: a
`threading.Timer(1.5, delayed_cleanup)` schedules the forwarder-buffer
removal and a registry removal at delay 1.5, and the synchronous
`_cleanup()` call then performs a registry removal and the socket close at
delay 0. -/
def producer_disconnect_schedule : List (ℚ × CleanupAct) :=
  [(3 / 2, .removeForwarderBuffer), (3 / 2, .removeMountConnection),
   (0, .removeMountConnection), (0, .closeSocket)]

/-- The delays at which a given action occurs in a schedule. -/
def actionTimes (a : CleanupAct) (sched : List (ℚ × CleanupAct)) : List ℚ :=
  sched.filterMap (fun e => if e.2 = a then some e.1 else none)

/-- Earliest of a list of delays. -/
def earliestTime (l : List ℚ) : Option ℚ :=
  l.foldr (fun t acc => match acc with | none => some t | some u => some (min t u)) none

/-! ### STR row processing (connection.py `_process_str_data` / `_update_str_fields`) -/

/-- The processing mode argument of `_process_str_data`. -/
inductive StrMode
  | initial
  | correct
  | regenerate
deriving DecidableEq

/-- The inspection-result dictionary handed to `_update_str_fields`
(connection.py:725-780), with one field per key the function reads. -/
structure ParseResult where
  city : Option Str
  message_types_str : Option Str
  carrier_combined : Option Str
  gnss_combined : Option Str
  country : Option Str
  lat : Option ℚ
  lon : Option ℚ
  bitrate : Option ℚ

/-- The empty inspection-result dictionary. -/
def emptyParseResult : ParseResult :=
  ⟨none, none, none, none, none, none, none, none⟩

/-- Decimal digit character. -/
def digitChar : ℕ → Char
  | 0 => '0'
  | 1 => '1'
  | 2 => '2'
  | 3 => '3'
  | 4 => '4'
  | 5 => '5'
  | 6 => '6'
  | 7 => '7'
  | 8 => '8'
  | 9 => '9'
  | _ => '*'

/-- Decimal digits of a natural number, accumulator form. -/
def natToCharsAux (n : ℕ) (acc : List Char) : List Char :=
  if h : n < 10 then digitChar n :: acc
  else natToCharsAux (n / 10) (digitChar (n % 10) :: acc)
termination_by n
decreasing_by exact Nat.div_lt_self (by omega) (by omega)

/-- Decimal representation of a natural number, as Python `str` produces it. -/
def natToChars (n : ℕ) : Str := natToCharsAux n []

/-- Python `str` of an integer. -/
def intToChars (i : ℤ) : Str :=
  if i < 0 then '-' :: natToChars i.natAbs else natToChars i.natAbs

/-- Python `int(x)`: truncation toward zero. -/
def ratTrunc (q : ℚ) : ℤ := if q < 0 then ⌈q⌉ else ⌊q⌋

/-- Left-pad with zeros to four characters. -/
def pad4 (s : Str) : Str := List.replicate (4 - s.length) '0' ++ s

/-- Python `f-string` formatting with `:.4f` over the rationals standing
in for the source's floats: round to four decimal places and render with
exactly four fractional digits. -/
def fmt4 (q : ℚ) : Str :=
  let n : ℤ := round (q * 10000)
  let a := n.natAbs
  (if n < 0 then ['-'] else []) ++ natToChars (a / 10000) ++ '.' :: pad4 (natToChars (a % 10000))

/-- The constant written into field 13. -/
def generatorTag : Str := "2RTK_NtirpCaster".data

/-- Field-19 tag for unverified rows. -/
def noTag : Str := "NO".data

/-- Field-19 tag for corrected rows. -/
def yesTag : Str := "YES".data

/-- The guarded assignment `if <truthy>: str_parts[i] = value` used
throughout `_update_str_fields`. -/
def setIf (b : Bool) (l : List Str) (i : ℕ) (v : Str) : List Str :=
  if b then l.set i v else l

/-- Embeds `ConnectionManager._update_str_fields` (connection.py:725-780):
conditionally overwrite identifier, format-details, carrier, nav-system,
country, latitude, longitude, and bitrate from truthy dictionary entries;
unconditionally overwrite generator and fee; set the final field to `NO`
in initial mode and `YES` otherwise. -/
def update_str_fields (parts : List Str) (pr : ParseResult) (mode : StrMode) : List Str :=
  let p := setIf (truthyOpt pr.city) parts 2 (pr.city.getD [])
  let p := setIf (truthyOpt pr.message_types_str) p 4 (pr.message_types_str.getD [])
  let p := setIf (truthyOpt pr.carrier_combined) p 5 (pr.carrier_combined.getD [])
  let p := setIf (truthyOpt pr.gnss_combined) p 6 (pr.gnss_combined.getD [])
  let p := setIf (truthyOpt pr.country) p 8 (pr.country.getD [])
  let p := setIf (truthyRat pr.lat) p 9 (fmt4 (pr.lat.getD 0))
  let p := setIf (truthyRat pr.lon) p 10 (fmt4 (pr.lon.getD 0))
  let p := p.set 13 generatorTag
  let p := p.set 16 ['N']
  let p := setIf (truthyRat pr.bitrate) p 17 (intToChars (ratTrunc (pr.bitrate.getD 0)))
  p.set (p.length - 1) (if mode = StrMode.initial then noTag else yesTag)

/-- `update_str_fields` with its data dependencies on the inspection
result abstracted into parameters: `b1`-`b8` are the truthiness tests and
`v1`-`v8` the written values, `tag` the final-field value.
`update_str_fields parts pr m` is definitionally this function applied at
the corresponding tests and values; the abstraction lets proofs case on
the tests. -/
def update_gen (b1 b2 b3 b4 b5 b6 b7 b8 : Bool)
    (v1 v2 v3 v4 v5 v6 v7 v8 tag : Str) (parts : List Str) : List Str :=
  let p := setIf b1 parts 2 v1
  let p := setIf b2 p 4 v2
  let p := setIf b3 p 5 v3
  let p := setIf b4 p 6 v4
  let p := setIf b5 p 8 v5
  let p := setIf b6 p 9 v6
  let p := setIf b7 p 10 v7
  let p := p.set 13 generatorTag
  let p := p.set 16 ['N']
  let p := setIf b8 p 17 v8
  p.set (p.length - 1) tag

/-- Python `s.split(';')` (split on every separator). -/
def splitOnChar (c : Char) : Str → List Str
  | [] => [[]]
  | x :: xs =>
    match splitOnChar c xs with
    | [] => [[]]
    | h :: t => if x = c then [] :: h :: t else (x :: h) :: t

/-- Python `';'.join(parts)`. -/
def intercalateChar (c : Char) : List Str → Str
  | [] => []
  | [p] => p
  | p :: ps => p ++ c :: intercalateChar c ps

/-- Embeds the `mode="correct"` path of
`ConnectionManager._process_str_data` (connection.py:624-684) applied to a
mount whose stored row is `row`: split the row on `';'`, bail out
unchanged when fewer than 19 fields result, otherwise update the fields
from the inspection result and re-join. -/
def process_str_correct (row : Str) (pr : ParseResult) : Str :=
  let strParts := splitOnChar ';' row
  if strParts.length < 19 then row
  else intercalateChar ';' (update_str_fields strParts pr StrMode.correct)

/-! ### Bitrate statistics (rtcm2.py RTCMParserThread) -/

/-- The statistics-carrying state of the inspector thread
(rtcm2.py:200-201, 227-238). -/
structure InspectorState where
  stats_enabled : Bool
  stats_start_time : ℚ
  last_stats_time : ℚ
  total_bytes : ℕ
  emitted : List ℚ
deriving DecidableEq

/-- Python `round(x, 2)` over the rationals. -/
def round2 (q : ℚ) : ℚ := (round (q * 100) : ℤ) / 100

/-- Embeds `RTCMParserThread._calculate_bitrate` (rtcm2.py:479-506):
nothing happens before statistics are enabled or when the elapsed interval
is under one second; otherwise `bytes * 8 / elapsed` (rounded to two
decimals) is emitted and the byte counter and interval start are reset. -/
def calculate_bitrate (s : InspectorState) (t : ℚ) : InspectorState :=
  if s.stats_enabled = false then s
  else
    let elapsed := t - s.last_stats_time
    if elapsed < 1 then s
    else
      { s with
        emitted := s.emitted ++ [round2 ((s.total_bytes : ℚ) * 8 / elapsed)],
        total_bytes := 0,
        last_stats_time := t }

/-- Embeds one iteration of the statistics bookkeeping in
`RTCMParserThread.run` (rtcm2.py:227-238 and 256-259) upon reading a raw
frame of `rawLen` bytes at time `t`: enable statistics once five seconds
have passed since the thread start (resetting the counters), count the
frame's bytes only while enabled, and recompute the bitrate when at least
ten seconds have elapsed since the previous computation. -/
def parser_step (start_time : ℚ) (s : InspectorState) (t : ℚ) (rawLen : ℕ) : InspectorState :=
  let s1 :=
    if s.stats_enabled = false ∧ t - start_time ≥ 5 then
      { s with stats_enabled := true, stats_start_time := t, last_stats_time := t, total_bytes := 0 }
    else s
  let s2 := if s1.stats_enabled then { s1 with total_bytes := s1.total_bytes + rawLen } else s1
  if s2.stats_enabled ∧ t - s2.last_stats_time ≥ 10 then calculate_bitrate s2 t else s2

/-! ### Logging of the upload authorization header (ntrip.py:1117) -/

/-- `leadsWith pat s` holds when `pat` is an initial segment of `s`. -/
def leadsWith : Str → Str → Bool
  | [], _ => true
  | _ :: _, [] => false
  | p :: ps, c :: cs => p = c && leadsWith ps cs

/-- `hasSubstr s pat` holds when `pat` occurs contiguously in `s`. -/
def hasSubstr (pat : Str) : Str → Bool
  | [] => leadsWith pat []
  | c :: rest => leadsWith pat (c :: rest) || hasSubstr pat rest

/-- Embeds the f-string logged by `NTRIPHandler.handle_upload` at
ntrip.py:1117 before any sanitisation:
`f"handle_upload начал проверку {addr}: mount={mount}, auth_header={auth_header[:50] if auth_header else 'None'}"`. -/
def upload_verify_log_line (clientAddr mount authHeader : Str) : Str :=
  "handle_upload начал проверку ".data ++ clientAddr ++ ": mount=".data ++ mount ++
    ", auth_header=".data ++ (if authHeader.isEmpty then "None".data else authHeader.take 50)

/-- A concrete registry holding one mount, used by several witnesses. -/
def regW : Registry := [("M1", ⟨"1.2.3.4", "ua", "1.0"⟩)]

/-- The credential store used by the download and authentication
witnesses: one user `u1` with legacy-plaintext password `pw1`, one mount
`M1` with no bound owner. -/
def dbW : DB := ⟨[⟨1, "u1", "pw1".data⟩], [⟨7, "M1", "mpw".data, none⟩]⟩

/-- A concrete 19-field STR row in its initial (field 19 = `NO`) form,
used by the C7 counterexample and witness. -/
def strRowW : Str :=
  "STR;M1;none;RTCM3.x;1005;0;GPS;2rtk;DEU;50.0000;8.0000;0;0;2RTK_NtirpCaster;N;B;N;500;NO".data

/-- A concrete inspection result used by the C7 witness. -/
def prW : ParseResult :=
  ⟨some ("Beijing".data), some ("1005(1),1074(1)".data), some ("L1+L2".data),
    some ("GPS+GLO".data), some ("CHN".data), some (40 : ℚ), some (116 : ℚ),
    some (5000 : ℚ)⟩

/-- Well-formedness of an inspection result: none of its string fields
contains the field separator `';'`. -/
def wellFormedResult (pr : ParseResult) : Prop :=
  (∀ s, pr.city = some s → ';' ∉ s) ∧
  (∀ s, pr.message_types_str = some s → ';' ∉ s) ∧
  (∀ s, pr.carrier_combined = some s → ';' ∉ s) ∧
  (∀ s, pr.gnss_combined = some s → ';' ∉ s) ∧
  (∀ s, pr.country = some s → ';' ∉ s)

theorem splitFirst_eq_none_iff (sep : Char) (s : Str) :
    splitFirst sep s = none ↔ sep ∉ s := by
  induction s with
  | nil => simp [splitFirst]
  | cons c rest ih =>
    simp only [splitFirst]
    by_cases hc : c = sep
    · simp [hc]
    · cases hrest : splitFirst sep rest with
      | none =>
        simp only [hrest, List.mem_cons]
        constructor
        · intro _ hmem
          rcases hmem with h | h
          · exact hc h.symm
          · exact (ih.mp hrest) h
        · intro _; simp [hc]
      | some p =>
        simp only [hrest, List.mem_cons]
        constructor
        · intro h
          simp [hc] at h
        · intro h
          exfalso
          have : sep ∉ rest := fun hm => h (Or.inr hm)
          rw [← ih] at this
          rw [this] at hrest
          cases hrest

theorem splitFirst_append (sep : Char) (salt rest : Str) (h : sep ∉ salt) :
    splitFirst sep (salt ++ sep :: rest) = some (salt, rest) := by
  induction salt with
  | nil => simp [splitFirst]
  | cons c cs ih =>
    have hc : c ≠ sep := fun hcs => h (by simp [hcs])
    have hcs : sep ∉ cs := fun hm => h (List.mem_cons_of_mem _ hm)
    simp [splitFirst, hc, ih hcs]

/-- C2: verifying a password against its own hash succeeds; verifying a
different password fails provided the PBKDF2 derivations differ (the
collision-freedom of PBKDF2, external to the repository, is a hypothesis);
a stored record without `'$'` is legacy plaintext, and verification then
succeeds exactly when the record equals the supplied password.  The salt
is hypothesised to be `'$'`-free, as `secrets.token_hex` guarantees. -/
theorem claim_c2_password_laws (pbkdf2 : Str → Str → Str) (p p1 p2 stored salt : Str)
    (hsalt : '$' ∉ salt) (_hne : p1 ≠ p2)
    (hcoll : pbkdf2 p1 salt ≠ pbkdf2 p2 salt) (hplain : '$' ∉ stored) :
    verify_password pbkdf2 (hash_password pbkdf2 p salt) p = true ∧
    verify_password pbkdf2 (hash_password pbkdf2 p1 salt) p2 = false ∧
    (verify_password pbkdf2 stored p = true ↔ stored = p) := by
  have hs : ∀ q : Str, splitFirst '$' (hash_password pbkdf2 q salt) = some (salt, pbkdf2 q salt) :=
    fun q => splitFirst_append '$' salt _ hsalt
  have hnone : splitFirst '$' stored = none := (splitFirst_eq_none_iff _ _).mpr hplain
  refine ⟨?_, ?_, ?_⟩
  · simp [verify_password, hs]
  · simp only [verify_password, hs, decide_eq_false_iff_not]
    exact fun h => hcoll h.symm
  · simp [verify_password, hnone]

/-- Witness for C2 at concrete inputs, with the abstract PBKDF2
instantiated by a function that is injective in the password. -/
theorem claim_c2_password_laws_witness :
    verify_password (fun q _ => q) (hash_password (fun q _ => q) ['a'] ['s']) ['a'] = true ∧
    verify_password (fun q _ => q) (hash_password (fun q _ => q) ['a'] ['s']) ['b'] = false ∧
    (verify_password (fun q _ => q) ['x'] ['a'] = true ↔ (['x'] : Str) = ['a']) :=
  claim_c2_password_laws (fun q _ => q) ['a'] ['a'] ['b'] ['x'] ['s']
    (by decide) (by decide) (by decide) (by decide)

/-! ### Registry helper lemmas -/

theorem mem_namesOf_eraseMount {reg : Registry} {m x : String}
    (h : x ∈ namesOf (eraseMount reg m)) : x ∈ namesOf reg := by
  induction reg with
  | nil => simp [eraseMount, namesOf] at h
  | cons e rest ih =>
    by_cases he : e.1 = m
    · simp only [eraseMount, if_pos he] at h
      exact List.mem_cons_of_mem _ h
    · simp only [eraseMount, if_neg he, namesOf, List.map_cons, List.mem_cons] at h ⊢
      rcases h with h | h
      · exact Or.inl h
      · exact Or.inr (ih h)

theorem nodup_namesOf_eraseMount {reg : Registry} {m : String}
    (h : (namesOf reg).Nodup) : (namesOf (eraseMount reg m)).Nodup := by
  induction reg with
  | nil => simpa [eraseMount] using h
  | cons e rest ih =>
    simp only [namesOf, List.map_cons, List.nodup_cons] at h
    by_cases he : e.1 = m
    · simpa [eraseMount, if_pos he, namesOf] using h.2
    · simp only [eraseMount, if_neg he, namesOf, List.map_cons, List.nodup_cons]
      exact ⟨fun hm => h.1 (mem_namesOf_eraseMount hm), ih h.2⟩

theorem not_mem_namesOf_eraseMount {reg : Registry} {m : String}
    (h : (namesOf reg).Nodup) : m ∉ namesOf (eraseMount reg m) := by
  induction reg with
  | nil => simp [eraseMount, namesOf]
  | cons e rest ih =>
    simp only [namesOf, List.map_cons, List.nodup_cons] at h
    by_cases he : e.1 = m
    · simp only [eraseMount, if_pos he]
      rw [← he]
      exact h.1
    · simp only [eraseMount, if_neg he, namesOf, List.map_cons, List.mem_cons]
      rintro (h1 | h2)
      · exact he h1.symm
      · exact ih h.2 h2

theorem lookupMount_isSome_iff {reg : Registry} {m : String} :
    (lookupMount reg m).isSome = true ↔ m ∈ namesOf reg := by
  induction reg with
  | nil => simp [lookupMount, namesOf]
  | cons e rest ih =>
    by_cases he : e.1 = m
    · simp [lookupMount, he, namesOf]
    · simp only [lookupMount, if_neg he, namesOf, List.map_cons, List.mem_cons]
      rw [ih]
      unfold namesOf
      constructor
      · exact Or.inr
      · rintro (h | h)
        · exact absurd h.symm he
        · exact h

theorem countName_eq_zero {reg : Registry} {m : String}
    (h : m ∉ namesOf reg) : countName reg m = 0 := by
  induction reg with
  | nil => rfl
  | cons e rest ih =>
    simp only [namesOf, List.map_cons, List.mem_cons] at h
    have h1 : e.1 ≠ m := fun he => h (Or.inl he.symm)
    have h2 : m ∉ namesOf rest := fun hm => h (Or.inr hm)
    simp [countName, h1, ih h2]

theorem countName_le_one {reg : Registry} (m : String)
    (h : (namesOf reg).Nodup) : countName reg m ≤ 1 := by
  induction reg with
  | nil => simp [countName]
  | cons e rest ih =>
    simp only [namesOf, List.map_cons, List.nodup_cons] at h
    by_cases he : e.1 = m
    · rw [← he] at *
      simp [countName, countName_eq_zero h.1]
    · simp only [countName, if_neg he, Nat.zero_add]
      exact ih h.2

theorem nodup_namesOf_add {reg : Registry} {m : String} (info : MountInfo)
    (h : (namesOf reg).Nodup) :
    (namesOf (add_mount_connection reg m info).2).Nodup := by
  unfold add_mount_connection
  by_cases hl : (lookupMount reg m).isSome = true
  · simp only [hl, if_true, namesOf, List.map_cons, List.nodup_cons]
    exact ⟨not_mem_namesOf_eraseMount h, nodup_namesOf_eraseMount h⟩
  · have hmem : m ∉ namesOf reg := fun hm => hl (lookupMount_isSome_iff.mpr hm)
    simp only [Bool.not_eq_true] at hl
    simp only [hl, Bool.false_eq_true, if_false, namesOf, List.map_cons, List.nodup_cons]
    exact ⟨hmem, h⟩

theorem nodup_namesOf_remove {reg : Registry} {m : String}
    (h : (namesOf reg).Nodup) :
    (namesOf (remove_mount_connection reg m).2).Nodup := by
  unfold remove_mount_connection
  split
  · exact nodup_namesOf_eraseMount h
  · exact h

/-- C1: the upload dispatcher preserves the at-most-one-entry-per-name
registry invariant (so at any instant at most one entry carries a given
mount name), and an admission attempt for an online mount from an address
different from the current producer's yields the Conflict outcome — which
`send_error_response 409` turns into an HTTP 409 — with the registry, and
hence the existing entry and its producer connection, left untouched. -/
theorem claim_c1_mount_exclusivity (reg : Registry) (mount ip agent ver : String)
    (authOk : Bool) (hnd : (namesOf reg).Nodup) :
    ((namesOf (handle_upload reg mount ip agent ver authOk).2).Nodup ∧
      ∀ m, countName (handle_upload reg mount ip agent ver authOk).2 m ≤ 1) ∧
    (∀ existing, mount ≠ "" → lookupMount reg mount = some existing →
      existing.ip_address ≠ ip →
      handle_upload reg mount ip agent ver authOk = (.conflict, reg)) := by
  constructor
  · have hpres : (namesOf (handle_upload reg mount ip agent ver authOk).2).Nodup := by
      unfold handle_upload
      split
      · exact hnd
      · split
        · split
          · exact hnd
          · split
            · exact nodup_namesOf_add _ (nodup_namesOf_remove hnd)
            · exact nodup_namesOf_remove hnd
        · split
          · exact nodup_namesOf_add _ hnd
          · exact hnd
    exact ⟨hpres, fun m => countName_le_one m hpres⟩
  · intro existing hmount hlook hip
    unfold handle_upload
    rw [if_neg hmount, hlook]
    simp [hip]

/-- Witness for C1: a second admission for `M1` from `5.6.7.8` while the
producer at `1.2.3.4` holds it is answered with Conflict and leaves the
registry unchanged. -/
theorem claim_c1_mount_exclusivity_witness :
    (namesOf regW).Nodup ∧
    (((namesOf (handle_upload regW "M1" "5.6.7.8" "ua2" "1.0" true).2).Nodup ∧
      ∀ m, countName (handle_upload regW "M1" "5.6.7.8" "ua2" "1.0" true).2 m ≤ 1) ∧
    (∀ existing, "M1" ≠ "" → lookupMount regW "M1" = some existing →
      existing.ip_address ≠ "5.6.7.8" →
      handle_upload regW "M1" "5.6.7.8" "ua2" "1.0" true = (.conflict, regW))) :=
  ⟨by decide, claim_c1_mount_exclusivity regW "M1" "5.6.7.8" "ua2" "1.0" true (by decide)⟩

theorem countName_add_eq_one {reg : Registry} (m : String) (info : MountInfo)
    (h : (namesOf reg).Nodup) :
    countName (add_mount_connection reg m info).2 m = 1 := by
  unfold add_mount_connection
  by_cases hl : (lookupMount reg m).isSome = true
  · have : m ∉ namesOf (eraseMount reg m) := not_mem_namesOf_eraseMount h
    simp [hl, countName, countName_eq_zero this]
  · have hmem : m ∉ namesOf reg := fun hm => hl (lookupMount_isSome_iff.mpr hm)
    simp only [Bool.not_eq_true] at hl
    simp [hl, countName, countName_eq_zero hmem]

/-- C10: `add_mount_connection` never fails — for every registry and input
it deletes whatever entry holds the name (whatever address that entry was
registered from), inserts the new entry, and returns success; and the
Conflict outcome of the upload path arises exactly from the dispatcher's
own pre-check in `handle_upload` (an existing entry under a different
address), so the registry operation itself can never refuse a takeover. -/
theorem claim_c10_add_mount_never_fails (reg : Registry) (mount : String)
    (info : MountInfo) (hnd : (namesOf reg).Nodup) :
    (add_mount_connection reg mount info).1.1 = true ∧
    (add_mount_connection reg mount info).1.2 = "Mount point connected successfully" ∧
    lookupMount (add_mount_connection reg mount info).2 mount = some info ∧
    countName (add_mount_connection reg mount info).2 mount = 1 ∧
    (∀ ip agent ver authOk, mount ≠ "" →
      ((handle_upload reg mount ip agent ver authOk).1 = .conflict ↔
        ∃ e, lookupMount reg mount = some e ∧ e.ip_address ≠ ip)) := by
  refine ⟨rfl, rfl, by simp [add_mount_connection, lookupMount],
    countName_add_eq_one mount info hnd, ?_⟩
  intro ip agent ver authOk hmount
  unfold handle_upload
  rw [if_neg hmount]
  cases hlook : lookupMount reg mount with
  | none => cases authOk <;> simp
  | some e =>
    by_cases hip : e.ip_address ≠ ip
    · simp [hip]
    · cases authOk <;> simp [hip]

/-- Witness for C10: taking over `M1` from a different address via the
bare registry operation succeeds and replaces the entry. -/
theorem claim_c10_add_mount_never_fails_witness :
    (namesOf regW).Nodup ∧
    ((add_mount_connection regW "M1" ⟨"9.9.9.9", "x", "2.0"⟩).1.1 = true ∧
    (add_mount_connection regW "M1" ⟨"9.9.9.9", "x", "2.0"⟩).1.2 =
      "Mount point connected successfully" ∧
    lookupMount (add_mount_connection regW "M1" ⟨"9.9.9.9", "x", "2.0"⟩).2 "M1" =
      some ⟨"9.9.9.9", "x", "2.0"⟩ ∧
    countName (add_mount_connection regW "M1" ⟨"9.9.9.9", "x", "2.0"⟩).2 "M1" = 1 ∧
    (∀ ip agent ver authOk, "M1" ≠ "" →
      ((handle_upload regW "M1" ip agent ver authOk).1 = .conflict ↔
        ∃ e, lookupMount regW "M1" = some e ∧ e.ip_address ≠ ip))) :=
  ⟨by decide, claim_c10_add_mount_never_fails regW "M1" ⟨"9.9.9.9", "x", "2.0"⟩ (by decide)⟩

/-- C3: in the NTRIP 2.0 dialect (with actually supplied, i.e. non-empty,
credentials) producer authentication succeeds exactly when the supplied
user exists, the user's password verifies against the stored record, the
mount exists in the credential store, and the mount has no bound owner or
its bound owner is the authenticated user; moreover the result does not
depend on the mount-password argument at all. -/
theorem claim_c3_v20_producer_auth (pbkdf2 : Str → Str → Str) (db : DB)
    (mount : String) (u : String) (p : Str) (mp1 mp2 : Option Str)
    (hu : u ≠ "") (hp : p ≠ []) :
    ((verify_mount_and_user pbkdf2 db mount (some u) (some p) mp1 "2.0").1 = true ↔
      ∃ mrec urec, findMountRec db.mounts mount = some mrec ∧
        findUser db.users u = some urec ∧
        verify_password pbkdf2 urec.password p = true ∧
        (mrec.user_id = none ∨ mrec.user_id = some urec.id)) ∧
    verify_mount_and_user pbkdf2 db mount (some u) (some p) mp1 "2.0" =
      verify_mount_and_user pbkdf2 db mount (some u) (some p) mp2 "2.0" := by
  have htu : truthyStr (some u) = true := by
    simp [truthyStr, hu]
  have htp : truthyOpt (some p) = true := by
    simp [truthyOpt, hp]
  unfold verify_mount_and_user
  cases hm : findMountRec db.mounts mount with
  | none => simp
  | some mrec =>
    simp only [if_pos rfl, htu, htp, Bool.true_eq_false, or_self, if_false, Option.getD_some]
    cases hu2 : findUser db.users u with
    | none => simp
    | some urec =>
      cases hv : verify_password pbkdf2 urec.password p with
      | false => simp [hv]
      | true =>
        cases hb : mrec.user_id with
        | none => simp [hv, hb]
        | some bound =>
          by_cases hbe : bound = urec.id
          · subst hbe
            simp [hv, hb]
          · simp [hv, hb, hbe]

/-- Witness for C3 at concrete inputs. -/
theorem claim_c3_v20_producer_auth_witness :
    ("u1" : String) ≠ "" ∧
    (((verify_mount_and_user (fun q _ => q) dbW "M1" (some "u1")
        (some ("pw1".data)) none "2.0").1 = true ↔
      ∃ mrec urec, findMountRec dbW.mounts "M1" = some mrec ∧
        findUser dbW.users "u1" = some urec ∧
        verify_password (fun q _ => q) urec.password ("pw1".data) = true ∧
        (mrec.user_id = none ∨ mrec.user_id = some urec.id)) ∧
    verify_mount_and_user (fun q _ => q) dbW "M1" (some "u1")
        (some ("pw1".data)) none "2.0" =
      verify_mount_and_user (fun q _ => q) dbW "M1" (some "u1")
        (some ("pw1".data)) (some ("ignored".data)) "2.0") :=
  ⟨by decide,
    claim_c3_v20_producer_auth (fun q _ => q) dbW "M1" "u1" ("pw1".data)
      none (some ("ignored".data)) (by decide) (by decide)⟩

/-- Counterexample to C4 as stated: with mount `M1` present in the
credential store but absent from the (empty) live registry, an
authenticated download for `/M1` is not answered with 404 — the dispatcher
proceeds to the forwarder subscription, because `handle_download` checks
`check_mount_exists_in_db` and never consults the registry. -/
theorem claim_c4_counterexample :
    lookupMount ([] : Registry) "M1" = none ∧
    handle_download (fun q _ => q) dbW "/M1" "u1" ("pw1".data) 0 3 =
      DownloadOutcome.subscribe ∧
    responseStatus (handle_download (fun q _ => q) dbW "/M1" "u1" ("pw1".data) 0 3) ≠ 404 := by
  refine ⟨rfl, ?_, ?_⟩ <;> decide

/-- C4 as amended: after successful consumer authentication the outcome of
a mount-naming download request is decided solely by the credential store
— 404 exactly when the mount is missing there, the subscription hand-off
otherwise; the live registry is never consulted. -/
theorem claim_c4_download_404_is_db_based (pbkdf2 : Str → Str → Str) (db : DB)
    (path : String) (u : String) (p : Str) (cnt maxU : ℕ)
    (hpath : ¬(path = "/" ∨ path = "" ∨ path = "/sourcetable"))
    (hauth : (verify_basic_auth_download pbkdf2 db (lstripSlash path) u p cnt maxU).1 = true) :
    handle_download pbkdf2 db path u p cnt maxU =
      (if check_mount_exists_in_db db (lstripSlash path) then .subscribe else .notFound) := by
  unfold handle_download
  rw [if_neg hpath]
  simp only [hauth, Bool.true_eq_false, if_false]
  cases hdb : check_mount_exists_in_db db (lstripSlash path) <;> simp

/-- Witness for C4's amended statement at concrete inputs. -/
theorem claim_c4_download_404_is_db_based_witness :
    (¬(("/M1" : String) = "/" ∨ ("/M1" : String) = "" ∨ ("/M1" : String) = "/sourcetable")) ∧
    (verify_basic_auth_download (fun q _ => q) dbW (lstripSlash "/M1") "u1"
      ("pw1".data) 0 3).1 = true ∧
    handle_download (fun q _ => q) dbW "/M1" "u1" ("pw1".data) 0 3 =
      (if check_mount_exists_in_db dbW (lstripSlash "/M1") then .subscribe else .notFound) :=
  ⟨by decide, by decide,
    claim_c4_download_404_is_db_based (fun q _ => q) dbW "/M1" "u1" ("pw1".data) 0 3
      (by decide) (by decide)⟩

/-- Counterexample to C5 as stated: with user `u1` already at the cap
(3 connections, cap 3), the download attempt is rejected through
`send_auth_challenge`, whose status line is 401, not 403. -/
theorem claim_c5_counterexample :
    handle_download (fun q _ => q) dbW "/M1" "u1" ("pw1".data) 3 3 =
      DownloadOutcome.challenge .limitExceeded ∧
    responseStatus (handle_download (fun q _ => q) dbW "/M1" "u1" ("pw1".data) 3 3) = 401 ∧
    (401 : ℕ) ≠ 403 := by
  refine ⟨?_, ?_, ?_⟩ <;> decide

/-- C5 as amended: when the user's concurrent-connection count has reached
`MAX_CONNECTIONS_PER_USER`, a further authenticated connection attempt is
rejected with the human-readable limit-exceeded message, delivered as a
401 challenge response (`send_auth_challenge`), not a 403. -/
theorem claim_c5_connection_cap (pbkdf2 : Str → Str → Str) (db : DB)
    (mount : String) (u : String) (p : Str) (cnt maxU : ℕ) (path : String)
    (hcnt : cnt ≥ maxU)
    (hok : (verify_download_user pbkdf2 db mount u p).1 = true)
    (hpath : ¬(path = "/" ∨ path = "" ∨ path = "/sourcetable"))
    (hm : lstripSlash path = mount) :
    verify_basic_auth_download pbkdf2 db mount u p cnt maxU = (false, .limitExceeded) ∧
    handle_download pbkdf2 db path u p cnt maxU = .challenge .limitExceeded ∧
    responseStatus (handle_download pbkdf2 db path u p cnt maxU) = 401 := by
  have hv : verify_basic_auth_download pbkdf2 db mount u p cnt maxU =
      (false, .limitExceeded) := by
    unfold verify_basic_auth_download
    simp [hok, hcnt]
  refine ⟨hv, ?_, ?_⟩ <;>
    · unfold handle_download
      rw [if_neg hpath]
      simp [hm, hv, responseStatus]

/-- Witness for C5's amended statement at concrete inputs. -/
theorem claim_c5_connection_cap_witness :
    (3 : ℕ) ≥ 3 ∧
    (verify_basic_auth_download (fun q _ => q) dbW "M1" "u1" ("pw1".data) 3 3 =
      (false, .limitExceeded) ∧
    handle_download (fun q _ => q) dbW "/M1" "u1" ("pw1".data) 3 3 =
      .challenge .limitExceeded ∧
    responseStatus (handle_download (fun q _ => q) dbW "/M1" "u1" ("pw1".data) 3 3) = 401) :=
  ⟨by decide,
    claim_c5_connection_cap (fun q _ => q) dbW "M1" "u1" ("pw1".data) 3 3 "/M1"
      (by decide) (by decide) (by decide) (by decide)⟩

/-- Counterexample to C6 as stated: in the cleanup performed after a
producer disconnect, the earliest registry-entry removal happens at delay
0 (the synchronous `_cleanup` call), not only after the 1.5-second grace
delay. -/
theorem claim_c6_counterexample :
    earliestTime (actionTimes .removeMountConnection producer_disconnect_schedule) = some 0 ∧
    ¬((3 : ℚ) / 2 ≤ 0) := by
  constructor
  · simp [producer_disconnect_schedule, actionTimes, earliestTime, List.filterMap]
    norm_num [min_def]
  · norm_num

/-- C6 as amended: after the producer socket closes or errors, the
forwarder buffer removal is scheduled only after the 1.5-second grace
delay (so in-flight chunks can drain), but the mount's registry entry is
removed immediately by the synchronous `_cleanup` call — the delayed
task's own registry removal is a no-op by then — and the socket is closed
immediately as well. -/
theorem claim_c6_cleanup_timing :
    earliestTime (actionTimes .removeForwarderBuffer producer_disconnect_schedule) =
      some (3 / 2) ∧
    earliestTime (actionTimes .removeMountConnection producer_disconnect_schedule) = some 0 ∧
    earliestTime (actionTimes .closeSocket producer_disconnect_schedule) = some 0 := by
  refine ⟨?_, ?_, ?_⟩ <;>
    · simp [producer_disconnect_schedule, actionTimes, earliestTime, List.filterMap]
      try norm_num [min_def]

/-- C9: per processed frame, (i) while statistics are not yet enabled and
fewer than five seconds have passed since the inspector started, the state
is untouched (the frame's bytes are ignored); (ii) once enabled, whenever
at least ten seconds have elapsed since the last computation, the bitrate
`bytes * 8 / interval` (rounded to two decimals) over the elapsed interval
is emitted and the byte counter and interval start are reset; (iii) once
enabled but before ten seconds have elapsed, the frame's bytes are only
accumulated. -/
theorem claim_c9_bitrate_statistics (start t : ℚ) (s : InspectorState) (n : ℕ) :
    (s.stats_enabled = false → t - start < 5 → parser_step start s t n = s) ∧
    (s.stats_enabled = true → t - s.last_stats_time ≥ 10 →
      parser_step start s t n =
        { s with
            emitted := s.emitted ++
              [round2 (((s.total_bytes + n : ℕ) : ℚ) * 8 / (t - s.last_stats_time))],
            total_bytes := 0,
            last_stats_time := t }) ∧
    (s.stats_enabled = true → t - s.last_stats_time < 10 →
      parser_step start s t n = { s with total_bytes := s.total_bytes + n }) := by
  refine ⟨?_, ?_, ?_⟩
  · intro he hl
    have h5 : ¬ t - start ≥ 5 := not_le.mpr hl
    simp [parser_step, he, h5]
  · intro he hge
    have h1 : ¬ (s.stats_enabled = false ∧ t - start ≥ 5) := by simp [he]
    have h2 : ¬ t - s.last_stats_time < 1 := by
      push_neg
      linarith
    unfold parser_step
    rw [if_neg h1]
    simp only [he, if_pos]
    rw [if_pos (by simpa using hge)]
    unfold calculate_bitrate
    simp [he, h2]
  · intro he hl
    have h1 : ¬ (s.stats_enabled = false ∧ t - start ≥ 5) := by simp [he]
    have h3 : ¬ t - s.last_stats_time ≥ 10 := not_le.mpr hl
    unfold parser_step
    rw [if_neg h1]
    simp [he, h3]

/-- Witness for C9: a disabled state inside the warm-up window stays
unchanged; an enabled state past the ten-second mark emits and resets; an
enabled state inside the window only accumulates. -/
theorem claim_c9_bitrate_statistics_witness :
    parser_step 0 ⟨false, 0, 0, 7, []⟩ 3 42 = ⟨false, 0, 0, 7, []⟩ ∧
    parser_step 0 ⟨true, 5, 5, 200, []⟩ 16 100 =
      { stats_enabled := true, stats_start_time := 5, last_stats_time := 16,
        total_bytes := 0,
        emitted := [round2 (((200 + 100 : ℕ) : ℚ) * 8 / ((16 : ℚ) - 5))] } ∧
    parser_step 0 ⟨true, 5, 5, 200, []⟩ 10 100 =
      { stats_enabled := true, stats_start_time := 5, last_stats_time := 5,
        total_bytes := 300, emitted := [] } := by
  refine ⟨?_, ?_, ?_⟩
  · exact (claim_c9_bitrate_statistics 0 3 ⟨false, 0, 0, 7, []⟩ 42).1 rfl (by norm_num)
  · exact (claim_c9_bitrate_statistics 0 16 ⟨true, 5, 5, 200, []⟩ 100).2.1 rfl (by norm_num)
  · exact (claim_c9_bitrate_statistics 0 10 ⟨true, 5, 5, 200, []⟩ 100).2.2 rfl (by norm_num)

/-- C8 fails on the code: `handle_upload` logs the request's Authorization
header value verbatim (truncated to 50 characters) at ntrip.py:1117,
before and regardless of `_sanitize_request_for_logging`; at the concrete
failing input the produced log line contains the full header value
`Basic dTE6cHcx` (the Basic credential of `u1:pw1`) as a substring. -/
theorem claim_c8_auth_header_logged :
    hasSubstr ("Basic dTE6cHcx".data)
      (upload_verify_log_line ("1.2.3.4".data) ("M1".data) ("Basic dTE6cHcx".data)) = true := by
  decide

/-! ### STR split/join and digit-string lemmas -/

theorem splitOnChar_ne_nil (c : Char) (s : Str) : splitOnChar c s ≠ [] := by
  cases s with
  | nil => simp [splitOnChar]
  | cons x xs =>
    rw [splitOnChar]
    rcases splitOnChar c xs with _ | ⟨hh, tt⟩
    · simp
    · by_cases hx : x = c <;> simp [hx]

theorem mem_splitOnChar {c : Char} {s part : Str}
    (h : part ∈ splitOnChar c s) : c ∉ part := by
  induction s generalizing part with
  | nil =>
    simp only [splitOnChar, List.mem_singleton] at h
    subst h
    exact List.not_mem_nil c
  | cons x xs ih =>
    rw [splitOnChar] at h
    cases hsp : splitOnChar c xs with
    | nil => exact absurd hsp (splitOnChar_ne_nil c xs)
    | cons hh tt =>
      simp only [hsp] at h
      by_cases hx : x = c
      · rw [if_pos hx] at h
        rcases List.mem_cons.mp h with h1 | h1
        · subst h1
          exact List.not_mem_nil c
        · exact ih (hsp ▸ h1)
      · rw [if_neg hx] at h
        rcases List.mem_cons.mp h with h1 | h1
        · subst h1
          have hh2 : c ∉ hh := ih (hsp ▸ List.mem_cons_self hh tt)
          intro hc
          rcases List.mem_cons.mp hc with h2 | h2
          · exact hx h2.symm
          · exact hh2 h2
        · exact ih (hsp ▸ List.mem_cons_of_mem hh h1)

theorem splitOnChar_no_sep (c : Char) (p : Str) (h : c ∉ p) :
    splitOnChar c p = [p] := by
  induction p with
  | nil => rfl
  | cons x xs ih =>
    have hx : ¬ x = c := fun he => h (by simp [he])
    have hxs : c ∉ xs := fun hm => h (List.mem_cons_of_mem _ hm)
    rw [splitOnChar, ih hxs]
    simp [hx]

theorem splitOnChar_append_cons (c : Char) (p rest : Str) (h : c ∉ p) :
    splitOnChar c (p ++ c :: rest) = p :: splitOnChar c rest := by
  induction p with
  | nil =>
    cases hsp : splitOnChar c rest with
    | nil => exact absurd hsp (splitOnChar_ne_nil c rest)
    | cons hh tt => simp [splitOnChar, hsp]
  | cons x xs ih =>
    have hx : ¬ x = c := fun he => h (by simp [he])
    have hxs : c ∉ xs := fun hm => h (List.mem_cons_of_mem _ hm)
    rw [List.cons_append, splitOnChar, ih hxs]
    simp [hx]

theorem splitOnChar_intercalateChar (c : Char) (ps : List Str) (hne : ps ≠ [])
    (hall : ∀ p ∈ ps, c ∉ p) : splitOnChar c (intercalateChar c ps) = ps := by
  induction ps with
  | nil => cases hne rfl
  | cons p ps ih =>
    cases ps with
    | nil =>
      rw [intercalateChar]
      exact splitOnChar_no_sep c p (hall p (by simp))
    | cons p2 ps2 =>
      have hne2 : p2 :: ps2 ≠ [] := List.cons_ne_nil _ _
      have hall2 : ∀ q ∈ p2 :: ps2, c ∉ q := fun q hq => hall q (List.mem_cons_of_mem _ hq)
      rw [intercalateChar, splitOnChar_append_cons c p _ (hall p (by simp)), ih hne2 hall2]
      exact fun hf => List.noConfusion hf

theorem digitChar_ne_semi (n : ℕ) : digitChar n ≠ ';' := by
  rcases n with _|(_|(_|(_|(_|(_|(_|(_|(_|(_|n))))))))) <;>
    first
      | decide
      | exact (by decide : ('*' : Char) ≠ ';')

theorem semi_not_mem_natToCharsAux (n : ℕ) (acc : List Char) (hacc : ';' ∉ acc) :
    ';' ∉ natToCharsAux n acc := by
  induction n using Nat.strong_induction_on generalizing acc with
  | _ n ih =>
    rw [natToCharsAux]
    split
    · intro hmem
      rcases List.mem_cons.mp hmem with h1 | h1
      · exact digitChar_ne_semi n h1.symm
      · exact hacc h1
    · next hlt =>
      refine ih (n / 10) (Nat.div_lt_self (by omega) (by omega)) _ ?_
      intro hmem
      rcases List.mem_cons.mp hmem with h1 | h1
      · exact digitChar_ne_semi (n % 10) h1.symm
      · exact hacc h1

theorem semi_not_mem_natToChars (n : ℕ) : ';' ∉ natToChars n :=
  semi_not_mem_natToCharsAux n [] (List.not_mem_nil _)

theorem semi_not_mem_intToChars (i : ℤ) : ';' ∉ intToChars i := by
  unfold intToChars
  split
  · intro hmem
    rcases List.mem_cons.mp hmem with h1 | h1
    · cases h1
    · exact semi_not_mem_natToChars _ h1
  · exact semi_not_mem_natToChars _

theorem semi_not_mem_pad4 (s : Str) (h : ';' ∉ s) : ';' ∉ pad4 s := by
  unfold pad4
  intro hmem
  rcases List.mem_append.mp hmem with h1 | h1
  · have := List.eq_of_mem_replicate h1
    cases this
  · exact h h1

theorem semi_not_mem_fmt4 (q : ℚ) : ';' ∉ fmt4 q := by
  unfold fmt4
  intro hmem
  simp only [List.append_assoc, List.mem_append, List.mem_cons] at hmem
  rcases hmem with h1 | h1 | h1 | h1
  · revert h1
    split <;> simp
  · exact semi_not_mem_natToChars _ h1
  · cases h1
  · exact semi_not_mem_pad4 _ (semi_not_mem_natToChars _) h1

/-! ### STR field-update lemmas -/

theorem forall_mem_set {α : Type} {P : α → Prop} {l : List α} {n : ℕ} {b : α}
    (h : ∀ q ∈ l, P q) (hb : P b) : ∀ q ∈ l.set n b, P q := by
  intro q hq
  rcases List.mem_or_eq_of_mem_set hq with h1 | h1
  · exact h q h1
  · rw [h1]
    exact hb

theorem forall_mem_setIf {P : Str → Prop} {bc : Bool} {l : List Str} {n : ℕ} {b : Str}
    (h : ∀ q ∈ l, P q) (hb : P b) : ∀ q ∈ setIf bc l n b, P q := by
  unfold setIf
  split
  · exact forall_mem_set h hb
  · exact h

theorem setIf_cons_succ (b : Bool) (x : Str) (l : List Str) (n : ℕ) (v : Str) :
    setIf b (x :: l) (n + 1) v = x :: setIf b l n v := by
  cases b <;> simp [setIf]

theorem setIf_cons_zero (b : Bool) (x : Str) (l : List Str) (v : Str) :
    setIf b (x :: l) 0 v = (if b then v else x) :: l := by
  cases b <;> simp [setIf]

theorem length_setIf (b : Bool) (l : List Str) (n : ℕ) (v : Str) :
    (setIf b l n v).length = l.length := by
  cases b <;> simp [setIf]

theorem ite_absorb (b : Bool) (v a : Str) :
    (if b then v else (if b then v else a)) = (if b then v else a) := by
  cases b <;> simp

theorem no_semi_update_str_fields (parts : List Str) (pr : ParseResult) (m : StrMode)
    (hparts : ∀ q ∈ parts, ';' ∉ q) (hpr : wellFormedResult pr) :
    ∀ q ∈ update_str_fields parts pr m, ';' ∉ q := by
  obtain ⟨h1, h2, h3, h4, h5⟩ := hpr
  have hv1 : ';' ∉ pr.city.getD [] := by
    cases hc : pr.city with
    | none => simp
    | some s => rw [Option.getD_some]; exact h1 s hc
  have hv2 : ';' ∉ pr.message_types_str.getD [] := by
    cases hc : pr.message_types_str with
    | none => simp
    | some s => rw [Option.getD_some]; exact h2 s hc
  have hv3 : ';' ∉ pr.carrier_combined.getD [] := by
    cases hc : pr.carrier_combined with
    | none => simp
    | some s => rw [Option.getD_some]; exact h3 s hc
  have hv4 : ';' ∉ pr.gnss_combined.getD [] := by
    cases hc : pr.gnss_combined with
    | none => simp
    | some s => rw [Option.getD_some]; exact h4 s hc
  have hv5 : ';' ∉ pr.country.getD [] := by
    cases hc : pr.country with
    | none => simp
    | some s => rw [Option.getD_some]; exact h5 s hc
  have hvlat : ';' ∉ fmt4 (pr.lat.getD 0) := semi_not_mem_fmt4 _
  have hvlon : ';' ∉ fmt4 (pr.lon.getD 0) := semi_not_mem_fmt4 _
  have hvgen : ';' ∉ generatorTag := by decide
  have hvN : ';' ∉ (['N'] : Str) := by decide
  have hvbit : ';' ∉ intToChars (ratTrunc (pr.bitrate.getD 0)) := semi_not_mem_intToChars _
  have hvtag : ';' ∉ (if m = StrMode.initial then noTag else yesTag) := by
    split <;> decide
  simp only [update_str_fields]
  exact forall_mem_set
    (forall_mem_setIf
      (forall_mem_set
        (forall_mem_set
          (forall_mem_setIf
            (forall_mem_setIf
              (forall_mem_setIf
                (forall_mem_setIf
                  (forall_mem_setIf
                    (forall_mem_setIf
                      (forall_mem_setIf hparts hv1)
                      hv2)
                    hv3)
                  hv4)
                hv5)
              hvlat)
            hvlon)
          hvgen)
        hvN)
      hvbit)
    hvtag

theorem length_update_str_fields (parts : List Str) (pr : ParseResult) (m : StrMode) :
    (update_str_fields parts pr m).length = parts.length := by
  simp only [update_str_fields, List.length_set, length_setIf]

theorem cons_of_length_succ {α : Type} (l : List α) (n : ℕ) (h : l.length = n + 1) :
    ∃ x t, l = x :: t ∧ t.length = n := by
  cases l with
  | nil => cases h
  | cons x t =>
    refine ⟨x, t, rfl, ?_⟩
    simpa using h

theorem eq_of_length19 {α : Type} (l : List α) (h : l.length = 19) :
    ∃ f0 f1 f2 f3 f4 f5 f6 f7 f8 f9 f10 f11 f12 f13 f14 f15 f16 f17 f18 : α,
      l = [f0, f1, f2, f3, f4, f5, f6, f7, f8, f9, f10, f11, f12, f13, f14,
           f15, f16, f17, f18] := by
  obtain ⟨f0, t0, rfl, h0⟩ := cons_of_length_succ l 18 h
  obtain ⟨f1, t1, rfl, h1⟩ := cons_of_length_succ t0 17 h0
  obtain ⟨f2, t2, rfl, h2⟩ := cons_of_length_succ t1 16 h1
  obtain ⟨f3, t3, rfl, h3⟩ := cons_of_length_succ t2 15 h2
  obtain ⟨f4, t4, rfl, h4⟩ := cons_of_length_succ t3 14 h3
  obtain ⟨f5, t5, rfl, h5⟩ := cons_of_length_succ t4 13 h4
  obtain ⟨f6, t6, rfl, h6⟩ := cons_of_length_succ t5 12 h5
  obtain ⟨f7, t7, rfl, h7⟩ := cons_of_length_succ t6 11 h6
  obtain ⟨f8, t8, rfl, h8⟩ := cons_of_length_succ t7 10 h7
  obtain ⟨f9, t9, rfl, h9⟩ := cons_of_length_succ t8 9 h8
  obtain ⟨f10, t10, rfl, h10⟩ := cons_of_length_succ t9 8 h9
  obtain ⟨f11, t11, rfl, h11⟩ := cons_of_length_succ t10 7 h10
  obtain ⟨f12, t12, rfl, h12⟩ := cons_of_length_succ t11 6 h11
  obtain ⟨f13, t13, rfl, h13⟩ := cons_of_length_succ t12 5 h12
  obtain ⟨f14, t14, rfl, h14⟩ := cons_of_length_succ t13 4 h13
  obtain ⟨f15, t15, rfl, h15⟩ := cons_of_length_succ t14 3 h14
  obtain ⟨f16, t16, rfl, h16⟩ := cons_of_length_succ t15 2 h15
  obtain ⟨f17, t17, rfl, h17⟩ := cons_of_length_succ t16 1 h16
  obtain ⟨f18, t18, rfl, h18⟩ := cons_of_length_succ t17 0 h17
  obtain rfl := List.length_eq_zero.mp h18
  exact ⟨f0, f1, f2, f3, f4, f5, f6, f7, f8, f9, f10, f11, f12, f13, f14,
    f15, f16, f17, f18, rfl⟩

theorem update_gen_eval (b1 b2 b3 b4 b5 b6 b7 b8 : Bool)
    (v1 v2 v3 v4 v5 v6 v7 v8 tag : Str)
    (f0 f1 f2 f3 f4 f5 f6 f7 f8 f9 f10 f11 f12 f13 f14 f15 f16 f17 f18 : Str) :
    update_gen b1 b2 b3 b4 b5 b6 b7 b8 v1 v2 v3 v4 v5 v6 v7 v8 tag
      [f0, f1, f2, f3, f4, f5, f6, f7, f8, f9, f10, f11, f12, f13, f14,
       f15, f16, f17, f18] =
    [f0, f1, if b1 then v1 else f2, f3, if b2 then v2 else f4,
     if b3 then v3 else f5, if b4 then v4 else f6, f7, if b5 then v5 else f8,
     if b6 then v6 else f9, if b7 then v7 else f10, f11, f12, generatorTag,
     f14, f15, ['N'], if b8 then v8 else f17, tag] := by
  simp [update_gen, setIf_cons_succ, setIf_cons_zero, length_setIf, List.set_cons_succ,
    List.set]

theorem update_gen_idem19 (b1 b2 b3 b4 b5 b6 b7 b8 : Bool)
    (v1 v2 v3 v4 v5 v6 v7 v8 tag : Str)
    (f0 f1 f2 f3 f4 f5 f6 f7 f8 f9 f10 f11 f12 f13 f14 f15 f16 f17 f18 : Str) :
    update_gen b1 b2 b3 b4 b5 b6 b7 b8 v1 v2 v3 v4 v5 v6 v7 v8 tag
      (update_gen b1 b2 b3 b4 b5 b6 b7 b8 v1 v2 v3 v4 v5 v6 v7 v8 tag
        [f0, f1, f2, f3, f4, f5, f6, f7, f8, f9, f10, f11, f12, f13, f14,
         f15, f16, f17, f18]) =
    update_gen b1 b2 b3 b4 b5 b6 b7 b8 v1 v2 v3 v4 v5 v6 v7 v8 tag
      [f0, f1, f2, f3, f4, f5, f6, f7, f8, f9, f10, f11, f12, f13, f14,
       f15, f16, f17, f18] := by
  rw [update_gen_eval, update_gen_eval]
  simp only [ite_absorb]

theorem update_str_fields_eq_gen (parts : List Str) (pr : ParseResult) (m : StrMode) :
    update_str_fields parts pr m =
      update_gen (truthyOpt pr.city) (truthyOpt pr.message_types_str)
        (truthyOpt pr.carrier_combined) (truthyOpt pr.gnss_combined)
        (truthyOpt pr.country) (truthyRat pr.lat) (truthyRat pr.lon)
        (truthyRat pr.bitrate) (pr.city.getD []) (pr.message_types_str.getD [])
        (pr.carrier_combined.getD []) (pr.gnss_combined.getD [])
        (pr.country.getD []) (fmt4 (pr.lat.getD 0)) (fmt4 (pr.lon.getD 0))
        (intToChars (ratTrunc (pr.bitrate.getD 0)))
        (if m = StrMode.initial then noTag else yesTag) parts := rfl

theorem update_str_fields_idem19 (pr : ParseResult)
    (f0 f1 f2 f3 f4 f5 f6 f7 f8 f9 f10 f11 f12 f13 f14 f15 f16 f17 f18 : Str) :
    update_str_fields
      (update_str_fields
        [f0, f1, f2, f3, f4, f5, f6, f7, f8, f9, f10, f11, f12, f13, f14,
         f15, f16, f17, f18] pr StrMode.correct) pr StrMode.correct =
    update_str_fields
      [f0, f1, f2, f3, f4, f5, f6, f7, f8, f9, f10, f11, f12, f13, f14,
       f15, f16, f17, f18] pr StrMode.correct := by
  rw [update_str_fields_eq_gen, update_str_fields_eq_gen]
  exact update_gen_idem19 (truthyOpt pr.city) (truthyOpt pr.message_types_str)
    (truthyOpt pr.carrier_combined) (truthyOpt pr.gnss_combined)
    (truthyOpt pr.country) (truthyRat pr.lat) (truthyRat pr.lon)
    (truthyRat pr.bitrate) (pr.city.getD []) (pr.message_types_str.getD [])
    (pr.carrier_combined.getD []) (pr.gnss_combined.getD [])
    (pr.country.getD []) (fmt4 (pr.lat.getD 0)) (fmt4 (pr.lon.getD 0))
    (intToChars (ratTrunc (pr.bitrate.getD 0)))
    (if StrMode.correct = StrMode.initial then noTag else yesTag)
    f0 f1 f2 f3 f4 f5 f6 f7 f8 f9 f10 f11 f12 f13 f14 f15 f16 f17 f18

theorem update_str_fields_empty19
    (f0 f1 f2 f3 f4 f5 f6 f7 f8 f9 f10 f11 f12 f13 f14 f15 f16 f17 f18 : Str) :
    update_str_fields
      [f0, f1, f2, f3, f4, f5, f6, f7, f8, f9, f10, f11, f12, f13, f14,
       f15, f16, f17, f18] emptyParseResult StrMode.correct =
    [f0, f1, f2, f3, f4, f5, f6, f7, f8, f9, f10, f11, f12, generatorTag,
     f14, f15, ['N'], f17, yesTag] := rfl

theorem wellFormed_empty : wellFormedResult emptyParseResult := by
  refine ⟨?_, ?_, ?_, ?_, ?_⟩ <;> intro s h <;> cases h

theorem wf_prW : wellFormedResult prW := by
  refine ⟨?_, ?_, ?_, ?_, ?_⟩ <;> intro s h <;>
    simp only [prW, Option.some.injEq] at h <;> subst h <;> decide

/-- Counterexample to C7 as stated: applying the empty inspection result
in correction mode to a freshly generated initial STR row does not leave
the row unchanged — the final verified field flips from `NO` to `YES`. -/
theorem claim_c7_counterexample :
    process_str_correct strRowW emptyParseResult ≠ strRowW := by
  decide

/-- C7 as amended: for a well-formed 19-field STR row and an inspection
result whose string fields contain no `';'`, applying the same result
twice in correction mode yields the same row as applying it once; applying
the empty result in correction mode does not leave the row unchanged in
general — it rewrites exactly the generator field (13) to
`2RTK_NtirpCaster`, the fee field (16) to `N`, and the final verified
field (18) to `YES`, preserving every other field. -/
theorem claim_c7_str_idempotence (row : Str) (pr : ParseResult)
    (h19 : (splitOnChar ';' row).length = 19) (hpr : wellFormedResult pr) :
    process_str_correct (process_str_correct row pr) pr = process_str_correct row pr ∧
    splitOnChar ';' (process_str_correct row emptyParseResult) =
      (((splitOnChar ';' row).set 13 generatorTag).set 16 ['N']).set 18 yesTag := by
  have hparts_mem : ∀ q ∈ splitOnChar ';' row, ';' ∉ q := fun _ hq => mem_splitOnChar hq
  have hne : ¬ (splitOnChar ';' row).length < 19 := by omega
  obtain ⟨f0, f1, f2, f3, f4, f5, f6, f7, f8, f9, f10, f11, f12, f13, f14,
    f15, f16, f17, f18, hrow⟩ := eq_of_length19 _ h19
  constructor
  · have e1 : process_str_correct row pr =
        intercalateChar ';' (update_str_fields (splitOnChar ';' row) pr StrMode.correct) := by
      simp only [process_str_correct]
      rw [if_neg hne]
    have hqmem : ∀ x ∈ update_str_fields (splitOnChar ';' row) pr StrMode.correct, ';' ∉ x :=
      no_semi_update_str_fields _ pr _ hparts_mem hpr
    have hqlen : (update_str_fields (splitOnChar ';' row) pr StrMode.correct).length = 19 := by
      rw [length_update_str_fields, h19]
    have hqne : update_str_fields (splitOnChar ';' row) pr StrMode.correct ≠ [] := by
      intro h0
      rw [h0] at hqlen
      simp at hqlen
    have hrt := splitOnChar_intercalateChar ';' _ hqne hqmem
    have hne2 : ¬ (splitOnChar ';'
        (intercalateChar ';' (update_str_fields (splitOnChar ';' row) pr
          StrMode.correct))).length < 19 := by
      rw [hrt, hqlen]
      omega
    rw [e1]
    simp only [process_str_correct]
    rw [if_neg hne2, hrt, hrow, update_str_fields_idem19]
  · have hqmem0 : ∀ x ∈ update_str_fields (splitOnChar ';' row) emptyParseResult
        StrMode.correct, ';' ∉ x :=
      no_semi_update_str_fields _ _ _ hparts_mem wellFormed_empty
    have hqlen0 : (update_str_fields (splitOnChar ';' row) emptyParseResult
        StrMode.correct).length = 19 := by
      rw [length_update_str_fields, h19]
    have hqne0 : update_str_fields (splitOnChar ';' row) emptyParseResult
        StrMode.correct ≠ [] := by
      intro h0
      rw [h0] at hqlen0
      simp at hqlen0
    simp only [process_str_correct]
    rw [if_neg hne, splitOnChar_intercalateChar ';' _ hqne0 hqmem0, hrow]
    rfl

/-- Witness for C7's amended statement at a concrete row and result. -/
theorem claim_c7_str_idempotence_witness :
    (splitOnChar ';' strRowW).length = 19 ∧ wellFormedResult prW ∧
    (process_str_correct (process_str_correct strRowW prW) prW =
        process_str_correct strRowW prW ∧
      splitOnChar ';' (process_str_correct strRowW emptyParseResult) =
        (((splitOnChar ';' strRowW).set 13 generatorTag).set 16 ['N']).set 18 yesTag) :=
  ⟨by decide, wf_prW, claim_c7_str_idempotence strRowW prW (by decide) wf_prW⟩

end NTRIP
